import Mathlib

/-!
Shallow embedding of the BESS cash-flow engine from
`src/app/components/BESSCashFlowModel.tsx`, over exact rationals.

JavaScript numbers are modelled by `ℚ`; `Math.round` is modelled by
`jround x = ⌊x + 1/2⌋`, which agrees with JS `Math.round` (half toward +∞)
at every real argument.  `Math.pow(1+r, -yr)` is modelled by the inverse of
the natural-number power.  Division in `ℚ` is total with `x / 0 = 0`; every
place where the source can actually divide by zero (the payback
interpolation, the EBITDA-margin denominator) is tracked explicitly by a
predicate rather than through that convention.
-/

namespace BESS

/-- JS `Math.round`: round half toward positive infinity. -/
def jround (x : ℚ) : ℤ := ⌊x + 1/2⌋

/-- Revenue scenario selector (`ScenarioKey` in the source). -/
inductive Scenario where
  | downside
  | base
  | upside
deriving DecidableEq, Repr

/-- Constant `PROJECT_LIFE = 12` from the source. -/
def PROJECT_LIFE : ℕ := 12

/-- Constant `OM_COST_RATE = 0.015` from the source. -/
def OM_COST_RATE : ℚ := 15/1000

/-- Constant `DEGRADATION_RATE = 0.02` from the source. -/
def DEGRADATION_RATE : ℚ := 2/100

/-- Constant `POWER_TO_ENERGY = 0.5` from the source. -/
def POWER_TO_ENERGY : ℚ := 1/2

/-- Constant `DISCHARGE_EFF = 0.96` from the source. -/
def DISCHARGE_EFF : ℚ := 96/100

/-- Table `REVENUE_PER_KW` from the source. -/
def REVENUE_PER_KW : Scenario → ℚ
  | .downside => 24557/100
  | .base => 35977/100
  | .upside => 61547/100

/-- The engine inputs (component state feeding `calc` in the source). -/
structure ProjectInputs where
  bessSize : ℚ
  capexPerKwh : ℚ
  revenueScenario : Scenario
  discountRate : ℚ
  debtRatio : ℚ
  interestRate : ℚ
  loanTenor : ℕ
  includeAggregatorFee : Bool
  aggregatorFeePercent : ℚ
deriving DecidableEq, Repr

/-- One row of the cash-flow table pushed into `flows` by the source: all
monetary fields pass through `Math.round`, hence are integers. -/
structure CashFlowRow where
  year : ℕ
  revenue : ℤ
  aggregatorFee : ℤ
  opex : ℤ
  ebitda : ℤ
  debtService : ℤ
  netCashFlow : ℤ
  cumulativeCashFlow : ℤ
deriving DecidableEq, Repr, Inhabited

/-- One point of the sensitivity series (`SensitivityPoint` in the source). -/
structure SensitivityPoint where
  capex : ℚ
  payback : ℚ
  irr : ℚ
deriving DecidableEq, Repr

/-- Source line `feeRate = includeAggregatorFee ? aggregatorFeePercent / 100 : 0`. -/
def feeRate (i : ProjectInputs) : ℚ :=
  if i.includeAggregatorFee then i.aggregatorFeePercent / 100 else 0

/-- Source line `powerKw = bessSize * POWER_TO_ENERGY`. -/
def powerKw (i : ProjectInputs) : ℚ := i.bessSize * POWER_TO_ENERGY

/-- Source line `totalCapex = bessSize * capexPerKwh`. -/
def totalCapex (i : ProjectInputs) : ℚ := i.bessSize * i.capexPerKwh

/-- Source line `annualOm = totalCapex * OM_COST_RATE`. -/
def annualOm (i : ProjectInputs) : ℚ := totalCapex i * OM_COST_RATE

/-- Source line `grossRevenue = powerKw * REVENUE_PER_KW[revenueScenario] * DISCHARGE_EFF`. -/
def grossRevenue (i : ProjectInputs) : ℚ :=
  powerKw i * REVENUE_PER_KW i.revenueScenario * DISCHARGE_EFF

/-- Source line `feeAnnual = grossRevenue * feeRate`. -/
def feeAnnual (i : ProjectInputs) : ℚ := grossRevenue i * feeRate i

/-- Source line `netRevenue = grossRevenue - feeAnnual`. -/
def netRevenue (i : ProjectInputs) : ℚ := grossRevenue i - feeAnnual i

/-- Source line `debt = totalCapex * debtRatio`. -/
def debt (i : ProjectInputs) : ℚ := totalCapex i * i.debtRatio

/-- Source line `equity = totalCapex - debt`. -/
def equity (i : ProjectInputs) : ℚ := totalCapex i - debt i

/-- The annual debt payment of the source, lines 121-126, as a standalone
function of principal, rate and tenor (the `DebtService.computeAnnualPayment`
contract of the spec): zero unless `debt > 0 && loanTenor > 0`, straight-line
when the interest rate is zero, level-payment amortization otherwise. -/
def computePayment (principal rate : ℚ) (tenor : ℕ) : ℚ :=
  if 0 < principal ∧ 0 < tenor then
    if rate = 0 then principal / (tenor : ℚ)
    else (principal * rate * (1 + rate) ^ tenor) / ((1 + rate) ^ tenor - 1)
  else 0

/-- Source variable `annualDebtPmt`. -/
def annualDebtPmt (i : ProjectInputs) : ℚ :=
  computePayment (debt i) i.interestRate i.loanTenor

/-!
The projection loop body (source lines 133-158).  Each `let` of the loop body
is a pure function of the year index, so it is translated to a named function
of `(inputs, yr)`; the loop itself keeps only the two accumulators
(`cumulative` and `npv`) and the list push, in `calcStep` below.
-/

/-- Source line `degFactor = yr === 0 ? 0 : Math.pow(1 - DEGRADATION_RATE, yr - 1)`. -/
def rawDegFactor (_i : ProjectInputs) (yr : ℕ) : ℚ :=
  if yr = 0 then 0 else (1 - DEGRADATION_RATE) ^ (yr - 1)

/-- Source line `gRev = yr === 0 ? 0 : grossRevenue * degFactor`. -/
def rawGRev (i : ProjectInputs) (yr : ℕ) : ℚ :=
  if yr = 0 then 0 else grossRevenue i * rawDegFactor i yr

/-- Source line `fee = yr === 0 ? 0 : gRev * feeRate`. -/
def rawFee (i : ProjectInputs) (yr : ℕ) : ℚ :=
  if yr = 0 then 0 else rawGRev i yr * feeRate i

/-- Source line `rev = yr === 0 ? 0 : gRev - fee`. -/
def rawRev (i : ProjectInputs) (yr : ℕ) : ℚ :=
  if yr = 0 then 0 else rawGRev i yr - rawFee i yr

/-- Source line `opex = yr === 0 ? 0 : annualOm`. -/
def rawOpex (i : ProjectInputs) (yr : ℕ) : ℚ :=
  if yr = 0 then 0 else annualOm i

/-- Source line `debtSvc = yr > 0 && yr <= loanTenor ? annualDebtPmt : 0`. -/
def rawDebtSvc (i : ProjectInputs) (yr : ℕ) : ℚ :=
  if 0 < yr ∧ yr ≤ i.loanTenor then annualDebtPmt i else 0

/-- Source line `ebitda = rev - opex`. -/
def rawEbitda (i : ProjectInputs) (yr : ℕ) : ℚ := rawRev i yr - rawOpex i yr

/-- Source line `cashEq = ebitda - debtSvc`. -/
def rawCashEq (i : ProjectInputs) (yr : ℕ) : ℚ := rawEbitda i yr - rawDebtSvc i yr

/-- Source line `initialInv = yr === 0 ? -equity : 0`. -/
def rawInitialInv (i : ProjectInputs) (yr : ℕ) : ℚ :=
  if yr = 0 then -equity i else 0

/-- Source line `netCF = cashEq + initialInv`: the unrounded net cash flow. -/
def rawNetCF (i : ProjectInputs) (yr : ℕ) : ℚ := rawCashEq i yr + rawInitialInv i yr

/-- The unrounded running cumulative cash flow after the iteration for `yr`
(source accumulator `cumulative += netCF`). -/
def rawCum (i : ProjectInputs) (yr : ℕ) : ℚ :=
  ∑ k in Finset.range (yr + 1), rawNetCF i k

/-- Source line `disc = Math.pow(1 + discountRate, -yr)`. -/
def rawDisc (i : ProjectInputs) (yr : ℕ) : ℚ := ((1 + i.discountRate) ^ yr)⁻¹

/-- One iteration of the projection loop, source lines 133-158: update the
`cumulative` and `npv` accumulators and push the rounded row. -/
def calcStep (i : ProjectInputs) (st : List CashFlowRow × ℚ × ℚ) (yr : ℕ) :
    List CashFlowRow × ℚ × ℚ :=
  let cumulative : ℚ := st.2.1 + rawNetCF i yr
  let npvAcc : ℚ := st.2.2 + rawNetCF i yr * rawDisc i yr
  (st.1 ++ [{ year := yr
              revenue := jround (rawRev i yr)
              aggregatorFee := jround (rawFee i yr)
              opex := jround (rawOpex i yr)
              ebitda := jround (rawEbitda i yr)
              debtService := jround (rawDebtSvc i yr)
              netCashFlow := jround (rawNetCF i yr)
              cumulativeCashFlow := jround cumulative }],
   cumulative, npvAcc)

/-- The whole projection loop: `flows` starts empty, `cumulative` at 0 and the
`npv` accumulator is seeded at `-equity` (source lines 129-131). -/
def calcLoop (i : ProjectInputs) : List CashFlowRow × ℚ × ℚ :=
  (List.range (PROJECT_LIFE + 1)).foldl (calcStep i) ([], 0, -equity i)

/-- The `flows` table of the source. -/
def calcFlows (i : ProjectInputs) : List CashFlowRow := (calcLoop i).1

/-- The `npv` result of the source. -/
def calcNpv (i : ProjectInputs) : ℚ := (calcLoop i).2.2

/-- The closed form of one pushed row: every monetary field is the rounded
unrounded quantity of its year. -/
def rowAt (i : ProjectInputs) (yr : ℕ) : CashFlowRow :=
  { year := yr
    revenue := jround (rawRev i yr)
    aggregatorFee := jround (rawFee i yr)
    opex := jround (rawOpex i yr)
    ebitda := jround (rawEbitda i yr)
    debtService := jround (rawDebtSvc i yr)
    netCashFlow := jround (rawNetCF i yr)
    cumulativeCashFlow := jround (rawCum i yr) }

/-!
IRR solver (`calcIRR`, source lines 268-282) and payback scan.
-/

/-- The `reduce` inside `calcIRR`: accumulate `acc + cf / (1+irr)^idx` along
the flow list. -/
def irrNpvGo (r : ℚ) : List ℚ → ℕ → ℚ → ℚ
  | [], _, acc => acc
  | cf :: rest, idx, acc => irrNpvGo r rest (idx + 1) (acc + cf / (1 + r) ^ idx)

/-- NPV of a flow sequence at a trial rate (source line 272). -/
def irrNpv (cfs : List ℚ) (r : ℚ) : ℚ := irrNpvGo r cfs 0 0

/-- The step-halving iteration of `calcIRR`, with the remaining iteration
count as fuel (source lines 271-280). -/
def irrGo (cfs : List ℚ) : ℕ → ℚ → ℚ → ℚ
  | 0, irr, _ => irr
  | fuel + 1, irr, stp =>
    let npv := irrNpv cfs irr
    if |npv| < 1/100 then irr
    else if 0 < npv then irrGo cfs fuel (irr + stp) stp
    else irrGo cfs fuel (irr - stp) (stp / 2)

/-- Source `calcIRR`: start at rate 0.1, step 0.1, at most 100 iterations. -/
def calcIRR (cfs : List ℚ) : ℚ := irrGo cfs 100 (1/10) (1/10)

/-- The scan of the payback loops: walk `yr = s, s+1, ...` for `fuel` steps and
return the first index whose cumulative cash flow is positive (the `break` of
source lines 163-170 and 245-253). -/
def fcAux (cum : ℕ → ℚ) : ℕ → ℕ → Option ℕ
  | _, 0 => none
  | s, fuel + 1 => if 0 < cum s then some s else fcAux cum (s + 1) fuel

/-- The payback computation shared by both loops of the source: scan years
1..PROJECT_LIFE for the first positive cumulative value `cum i`; if found,
interpolate `i - 1 + (-cum (i-1)) / net i`, else return `PROJECT_LIFE`.
In the primary loop `cum`/`net` are the rounded table columns; in the
sensitivity loop they are the unrounded flows (where `prevCum` is
`cumulative - flows[i]`, i.e. `cum (i-1)`). -/
def payLoop (cum net : ℕ → ℚ) : ℚ :=
  match fcAux cum 1 PROJECT_LIFE with
  | none => (PROJECT_LIFE : ℚ)
  | some i => (i : ℚ) - 1 + -(cum (i - 1)) / net i

/-- Source line 161: the flow sequence handed to `calcIRR` is the rounded
`netCashFlow` column of the table. -/
def calcNetCFList (i : ProjectInputs) : List ℚ :=
  (calcFlows i).map (fun r => (r.netCashFlow : ℚ))

/-- The `irr` field of the primary result (source line 161). -/
def calcIrrResult (i : ProjectInputs) : ℚ := calcIRR (calcNetCFList i)

/-- The rounded `cumulativeCashFlow` column of the table, as a function. -/
def tableCum (i : ProjectInputs) (yr : ℕ) : ℚ :=
  (((calcFlows i).getD yr default).cumulativeCashFlow : ℚ)

/-- The rounded `netCashFlow` column of the table, as a function. -/
def tableNet (i : ProjectInputs) (yr : ℕ) : ℚ :=
  (((calcFlows i).getD yr default).netCashFlow : ℚ)

/-- The `payback` field of the primary result (source lines 162-170): the
payback scan over the rounded table columns. -/
def calcPaybackResult (i : ProjectInputs) : ℚ :=
  payLoop (tableCum i) (tableNet i)

/-!
List payback wrapper for the standalone PaybackCalculator contract.
-/

/-- The crossing scan over a cumulative list, scanning indices 1 to
`length - 1` like both source loops. -/
def crossingIndexList (cum : List ℚ) : Option ℕ :=
  fcAux (fun k => cum.getD k 0) 1 (cum.length - 1)

/-- Whether the payback interpolation at the first crossing divides by zero,
i.e. whether the crossing year's net cash flow is zero — the situation the
source computes `-prev / 0` in (JS `Infinity`/`NaN`). -/
def paybackDividesByZero (cum net : List ℚ) : Bool :=
  match crossingIndexList cum with
  | some j => net.getD j 0 == 0
  | none => false

/-- Source line 186: `ebitdaMarginYear1 = ((netRevenue - annualOm) / netRevenue) * 100`
(before `toFixed`). -/
def ebitdaMarginYear1 (i : ProjectInputs) : ℚ :=
  (netRevenue i - annualOm i) / netRevenue i * 100

/-!
Sensitivity sweep (source lines 201-256).  The loop body duplicates the
primary derivations with the swept `cpx` substituted for `capexPerKwh`; it is
embedded with the same duplication, to be compared with the primary pipeline.
-/

/-- The net cash flow of year `yr` as computed inside the sensitivity sweep
for axis value `cpx` (source lines 203-236, one `flows.push` entry). -/
def sweepNetCF (i : ProjectInputs) (cpx : ℚ) (yr : ℕ) : ℚ :=
  let feeRate : ℚ := if i.includeAggregatorFee then i.aggregatorFeePercent / 100 else 0
  let powerKw : ℚ := i.bessSize * POWER_TO_ENERGY
  let totalCapex : ℚ := i.bessSize * cpx
  let annualOm : ℚ := totalCapex * OM_COST_RATE
  let grossRevenue : ℚ := powerKw * REVENUE_PER_KW i.revenueScenario * DISCHARGE_EFF
  let debt : ℚ := totalCapex * i.debtRatio
  let equity : ℚ := totalCapex - debt
  let annualDebtPmt : ℚ :=
    if 0 < debt ∧ 0 < i.loanTenor then
      if i.interestRate = 0 then debt / (i.loanTenor : ℚ)
      else (debt * i.interestRate * (1 + i.interestRate) ^ i.loanTenor) /
        ((1 + i.interestRate) ^ i.loanTenor - 1)
    else 0
  let degFactor : ℚ := if yr = 0 then 0 else (1 - DEGRADATION_RATE) ^ (yr - 1)
  let gRev : ℚ := if yr = 0 then 0 else grossRevenue * degFactor
  let fee : ℚ := if yr = 0 then 0 else gRev * feeRate
  let rev : ℚ := if yr = 0 then 0 else gRev - fee
  let opex : ℚ := if yr = 0 then 0 else annualOm
  let debtSvc : ℚ := if 0 < yr ∧ yr ≤ i.loanTenor then annualDebtPmt else 0
  let ebitda : ℚ := rev - opex
  let cashEq : ℚ := ebitda - debtSvc
  let initialInv : ℚ := if yr = 0 then -equity else 0
  cashEq + initialInv

/-- The running cumulative sum of the sweep's payback loop (source line 246). -/
def sweepCum (i : ProjectInputs) (cpx : ℚ) (yr : ℕ) : ℚ :=
  ∑ k in Finset.range (yr + 1), sweepNetCF i cpx k

/-- The `flows` vector of one sweep point (source lines 225-237). -/
def sweepFlowsList (i : ProjectInputs) (cpx : ℚ) : List ℚ :=
  (List.range (PROJECT_LIFE + 1)).map (sweepNetCF i cpx)

/-- The `irr` of one sweep point, already scaled to percent (source line 240). -/
def sweepIrr (i : ProjectInputs) (cpx : ℚ) : ℚ := calcIRR (sweepFlowsList i cpx) * 100

/-- The `payback` of one sweep point (source lines 243-253): the same scan as
the primary loop, but over the unrounded flows, with
`prevCum = cumulative - flows[i]`. -/
def sweepPayback (i : ProjectInputs) (cpx : ℚ) : ℚ :=
  payLoop (sweepCum i cpx) (sweepNetCF i cpx)

/-- One emitted `SensitivityPoint` (source line 255). -/
def sensPoint (i : ProjectInputs) (cpx : ℚ) : SensitivityPoint :=
  { capex := cpx, payback := sweepPayback i cpx, irr := sweepIrr i cpx }

/-- Source line 202: the swept capex axis. -/
def CAPEX_VALUES : List ℚ := [300, 325, 350, 375, 400]

/-- The whole `sensitivityData` series (source lines 205-256). -/
def sensitivityData (i : ProjectInputs) : List SensitivityPoint :=
  CAPEX_VALUES.map (sensPoint i)

/-- Substituting an axis value for `capexPerKwh`, all other inputs fixed. -/
def sweepInputs (i : ProjectInputs) (cpx : ℚ) : ProjectInputs :=
  { i with capexPerKwh := cpx }

/-- Modelled from the spec (glossary and §4.2 step 4): the net present value
as the plain sum of discounted net cash flows,
`Σ netCashFlow[yr] * (1+discountRate)^(-yr)` over `yr = 0..PROJECT_LIFE`,
with `netCashFlow[0] = -equity`.  This is the quantity claim C1 says the
`npv` field equals; it is compared against the accumulator `calcNpv`. -/
def npvOfDiscountedFlows (i : ProjectInputs) : ℚ :=
  ∑ yr in Finset.range (PROJECT_LIFE + 1), rawNetCF i yr * rawDisc i yr

/-!
Concrete inputs used by witnesses and counterexamples.
-/

/-- The default inputs of the component state (250 kWh, 350 $/kWh, base
scenario, 8% discount, no debt, 8% interest, 7-year tenor, no fee). -/
def baseInputs : ProjectInputs :=
  { bessSize := 250, capexPerKwh := 350, revenueScenario := .base
    discountRate := 2/25, debtRatio := 0, interestRate := 2/25
    loanTenor := 7, includeAggregatorFee := false, aggregatorFeePercent := 22 }

/-- A small all-equity input (1 kWh at 100 $/kWh) whose flows are fractional,
exposing the rounding of the table. -/
def tinyInputs100 : ProjectInputs :=
  { baseInputs with bessSize := 1, capexPerKwh := 100 }

/-- A small all-equity input at the swept axis value 300. -/
def tinyInputs300 : ProjectInputs :=
  { baseInputs with bessSize := 1, capexPerKwh := 300 }

/-- A small input with 10% debt at zero interest, whose annual debt payment
is 1/7, i.e. rounds to 0. -/
def tinyDebtInputs : ProjectInputs :=
  { baseInputs with bessSize := 1, capexPerKwh := 10, debtRatio := 1/10, interestRate := 0 }

/-- The degenerate zero-capacity input. -/
def zeroCapInputs : ProjectInputs :=
  { baseInputs with bessSize := 0 }

/-!
Structural lemmas about the projection loop.
-/

/-- Closed form of the projection loop after `n` iterations: the rows are the
rounded per-year rows, the `cumulative` accumulator is the partial sum of the
unrounded net cash flows, and the `npv` accumulator is its seed `-equity`
plus the discounted partial sum. -/
theorem calcLoop_closedForm (i : ProjectInputs) (n : ℕ) :
    (List.range n).foldl (calcStep i) ([], 0, -equity i) =
      ((List.range n).map (rowAt i),
       ∑ k in Finset.range n, rawNetCF i k,
       -equity i + ∑ k in Finset.range n, rawNetCF i k * rawDisc i k) := by
  induction n with
  | zero => simp
  | succ n ih =>
    rw [List.range_succ, List.foldl_append, ih, List.foldl_cons, List.foldl_nil]
    simp [calcStep, rowAt, rawCum, Finset.sum_range_succ, List.range_succ, add_assoc]

/-- The `flows` table is the list of rounded rows for years 0..12. -/
theorem calcFlows_eq (i : ProjectInputs) :
    calcFlows i = (List.range (PROJECT_LIFE + 1)).map (rowAt i) := by
  rw [calcFlows, calcLoop, calcLoop_closedForm]

/-- The `npv` accumulator ends at `-equity` plus the sum of discounted net
cash flows: the seed is added on top of year 0's own `-equity` flow. -/
theorem calcNpv_eq (i : ProjectInputs) :
    calcNpv i = -equity i + npvOfDiscountedFlows i := by
  rw [calcNpv, calcLoop, calcLoop_closedForm, npvOfDiscountedFlows]

/-- Indexing the `flows` table inside the horizon yields the rounded row. -/
theorem calcFlows_getD (i : ProjectInputs) (yr : ℕ) (h : yr < PROJECT_LIFE + 1) :
    (calcFlows i).getD yr default = rowAt i yr := by
  rw [calcFlows_eq]
  rw [List.getD_eq_getElem?_getD, List.getElem?_map, List.getElem?_range h]
  rfl

/-- The table's cumulative column is the rounded unrounded cumulative sum. -/
theorem tableCum_eq (i : ProjectInputs) (yr : ℕ) (h : yr ≤ PROJECT_LIFE) :
    tableCum i yr = ((jround (rawCum i yr) : ℤ) : ℚ) := by
  rw [tableCum, calcFlows_getD i yr (by omega)]
  rfl

/-- The table's net-cash-flow column is the rounded unrounded net cash flow. -/
theorem tableNet_eq (i : ProjectInputs) (yr : ℕ) (h : yr ≤ PROJECT_LIFE) :
    tableNet i yr = ((jround (rawNetCF i yr) : ℤ) : ℚ) := by
  rw [tableNet, calcFlows_getD i yr (by omega)]
  rfl

/-- The flow list handed to the IRR solver is the rounded net-cash-flow
column. -/
theorem calcNetCFList_eq (i : ProjectInputs) :
    calcNetCFList i =
      (List.range (PROJECT_LIFE + 1)).map (fun yr => ((jround (rawNetCF i yr) : ℤ) : ℚ)) := by
  rw [calcNetCFList, calcFlows_eq, List.map_map]
  rfl

/-!
Specification of the payback scan `fcAux`.
-/

/-- The scan returns `none` exactly when no index in its window has positive
cumulative value. -/
theorem fcAux_none_iff (cum : ℕ → ℚ) :
    ∀ fuel s, fcAux cum s fuel = none ↔ ∀ k, s ≤ k → k < s + fuel → ¬ 0 < cum k := by
  intro fuel
  induction fuel with
  | zero =>
    intro s
    constructor
    · intro _ k hk1 hk2
      omega
    · intro _
      rfl
  | succ f ih =>
    intro s
    simp only [fcAux]
    by_cases hs : 0 < cum s
    · simp only [hs, if_true]
      constructor
      · intro h
        cases h
      · intro h
        exact absurd hs (h s le_rfl (by omega))
    · simp only [hs, if_false]
      rw [ih (s + 1)]
      constructor
      · intro h k hk1 hk2
        rcases Nat.eq_or_lt_of_le hk1 with rfl | hlt
        · exact hs
        · exact h k hlt (by omega)
      · intro h k hk1 hk2
        exact h k (by omega) (by omega)

/-- What a successful scan means: the found index is in the window, its
cumulative value is positive, and it is the first such index. -/
theorem fcAux_some_spec (cum : ℕ → ℚ) :
    ∀ fuel s j, fcAux cum s fuel = some j →
      s ≤ j ∧ j < s + fuel ∧ 0 < cum j ∧ ∀ k, s ≤ k → k < j → ¬ 0 < cum k := by
  intro fuel
  induction fuel with
  | zero =>
    intro s j h
    cases h
  | succ f ih =>
    intro s j h
    simp only [fcAux] at h
    by_cases hs : 0 < cum s
    · simp only [hs, if_true, Option.some.injEq] at h
      subst h
      exact ⟨le_rfl, by omega, hs, fun k hk1 hk2 => by omega⟩
    · simp only [hs, if_false] at h
      obtain ⟨h1, h2, h3, h4⟩ := ih (s + 1) j h
      refine ⟨by omega, by omega, h3, ?_⟩
      intro k hk1 hk2
      rcases Nat.eq_or_lt_of_le hk1 with rfl | hlt
      · exact hs
      · exact h4 k hlt hk2

/-- The scan only looks at its window. -/
theorem fcAux_congr (c1 c2 : ℕ → ℚ) :
    ∀ fuel s, (∀ k, s ≤ k → k < s + fuel → c1 k = c2 k) →
      fcAux c1 s fuel = fcAux c2 s fuel := by
  intro fuel
  induction fuel with
  | zero =>
    intro s _
    rfl
  | succ f ih =>
    intro s h
    simp only [fcAux]
    rw [h s le_rfl (by omega)]
    by_cases hs : 0 < c2 s
    · simp [hs]
    · simp only [hs, if_false]
      exact ih (s + 1) (fun k hk1 hk2 => h k (by omega) (by omega))

/-- The payback value only depends on the columns inside the horizon. -/
theorem payLoop_congr {c1 n1 c2 n2 : ℕ → ℚ}
    (hc : ∀ k, k ≤ PROJECT_LIFE → c1 k = c2 k)
    (hn : ∀ k, 1 ≤ k → k ≤ PROJECT_LIFE → n1 k = n2 k) :
    payLoop c1 n1 = payLoop c2 n2 := by
  have hfc : fcAux c1 1 PROJECT_LIFE = fcAux c2 1 PROJECT_LIFE :=
    fcAux_congr c1 c2 PROJECT_LIFE 1 (fun k hk1 hk2 => hc k (by omega))
  unfold payLoop
  rw [hfc]
  cases h : fcAux c2 1 PROJECT_LIFE with
  | none => rfl
  | some j =>
    obtain ⟨hj1, hj2, _, _⟩ := fcAux_some_spec c2 PROJECT_LIFE 1 j h
    show (j : ℚ) - 1 + -(c1 (j - 1)) / n1 j = (j : ℚ) - 1 + -(c2 (j - 1)) / n2 j
    rw [hc (j - 1) (by omega), hn j (by omega) (by omega)]

/-!
The sweep's duplicated per-year computation coincides with the primary
unrounded computation with the axis value substituted for the capital cost.
-/

/-- The sweep loop body equals the primary unrounded net cash flow at the
substituted inputs. -/
theorem sweepNetCF_eq_raw (i : ProjectInputs) (cpx : ℚ) (yr : ℕ) :
    sweepNetCF i cpx yr = rawNetCF (sweepInputs i cpx) yr := rfl

/-- The sweep's running cumulative sum equals the primary unrounded
cumulative sum at the substituted inputs. -/
theorem sweepCum_eq_raw (i : ProjectInputs) (cpx : ℚ) (yr : ℕ) :
    sweepCum i cpx yr = rawCum (sweepInputs i cpx) yr := rfl

/-- The sweep's flow vector equals the primary unrounded flow sequence at the
substituted inputs. -/
theorem sweepFlowsList_eq_raw (i : ProjectInputs) (cpx : ℚ) :
    sweepFlowsList i cpx = (List.range (PROJECT_LIFE + 1)).map (rawNetCF (sweepInputs i cpx)) :=
  rfl

/-- Consecutive cumulative sums differ by the year's net cash flow. -/
theorem sweepCum_sub (i : ProjectInputs) (cpx : ℚ) (k : ℕ) (h : 1 ≤ k) :
    sweepNetCF i cpx k = sweepCum i cpx k - sweepCum i cpx (k - 1) := by
  obtain ⟨m, rfl⟩ : ∃ m, k = m + 1 := ⟨k - 1, by omega⟩
  simp [sweepCum, Finset.sum_range_succ]

/-!
Properties of the annual debt payment.
-/

/-- Denominator of the amortization formula is positive for positive rate
and tenor. -/
theorem amortDen_pos {r : ℚ} {t : ℕ} (hr : 0 < r) (ht : 0 < t) :
    0 < (1 + r) ^ t - 1 := by
  have h1 : (1 : ℚ) < (1 + r) ^ t := by
    apply one_lt_pow₀ (by linarith)
    omega
  linarith

/-- The annual payment is never negative on the valid domain. -/
theorem computePayment_nonneg {p r : ℚ} (t : ℕ) (hp : 0 ≤ p) (hr : 0 ≤ r) :
    0 ≤ computePayment p r t := by
  unfold computePayment
  split_ifs with h1 h2
  · positivity
  · have hrpos : 0 < r := lt_of_le_of_ne hr (Ne.symm h2)
    have hden : (0 : ℚ) < (1 + r) ^ t - 1 := amortDen_pos hrpos h1.2
    have hpow : (0 : ℚ) ≤ (1 + r) ^ t := by positivity
    exact div_nonneg (by positivity) (le_of_lt hden)
  · exact le_rfl

/-- The annual payment is strictly positive for positive principal and
tenor. -/
theorem computePayment_pos {p r : ℚ} {t : ℕ} (hp : 0 < p) (hr : 0 ≤ r) (ht : 0 < t) :
    0 < computePayment p r t := by
  have hc : 0 < p ∧ 0 < t := ⟨hp, ht⟩
  unfold computePayment
  rw [if_pos hc]
  split_ifs with h2
  · have htq : (0 : ℚ) < (t : ℚ) := by exact_mod_cast ht
    positivity
  · have hrpos : 0 < r := lt_of_le_of_ne hr (Ne.symm h2)
    have hden : (0 : ℚ) < (1 + r) ^ t - 1 := amortDen_pos hrpos ht
    have hpow : (0 : ℚ) < (1 + r) ^ t := by positivity
    positivity

/-- The annual payment is monotone in the principal. -/
theorem computePayment_mono {p1 p2 r : ℚ} (t : ℕ) (hr : 0 ≤ r) (hp1 : 0 ≤ p1)
    (hpp : p1 ≤ p2) : computePayment p1 r t ≤ computePayment p2 r t := by
  by_cases hp : 0 < p1
  · by_cases ht : 0 < t
    · have hp2 : 0 < p2 := lt_of_lt_of_le hp hpp
      have hc1 : 0 < p1 ∧ 0 < t := ⟨hp, ht⟩
      have hc2 : 0 < p2 ∧ 0 < t := ⟨hp2, ht⟩
      unfold computePayment
      rw [if_pos hc1, if_pos hc2]
      split_ifs with h2
      · have htq : (0 : ℚ) < (t : ℚ) := by exact_mod_cast ht
        gcongr
      · have hrpos : 0 < r := lt_of_le_of_ne hr (Ne.symm h2)
        have hden : (0 : ℚ) < (1 + r) ^ t - 1 := amortDen_pos hrpos ht
        have hpow : (0 : ℚ) ≤ (1 + r) ^ t := by positivity
        gcongr
    · have ht0 : t = 0 := by omega
      subst ht0
      unfold computePayment
      rw [if_neg (by rintro ⟨_, h⟩; exact absurd h (lt_irrefl 0)),
        if_neg (by rintro ⟨_, h⟩; exact absurd h (lt_irrefl 0))]
  · have hp0 : p1 = 0 := le_antisymm (not_lt.1 hp) hp1
    subst hp0
    have hz : computePayment 0 r t = 0 := by
      unfold computePayment
      rw [if_neg]
      rintro ⟨h, _⟩
      exact absurd h (lt_irrefl 0)
    rw [hz]
    exact computePayment_nonneg t hpp hr

/-!
Monotonicity of the flows in the capital cost, and of the payback value in
the flows.
-/

/-- Raising the capital cost (all else fixed, on the valid domain) lowers
every year's unrounded net cash flow. -/
theorem rawNetCF_capex_anti (i : ProjectInputs) {c1 c2 : ℚ}
    (hsize : 0 ≤ i.bessSize) (hdr0 : 0 ≤ i.debtRatio) (hdr1 : i.debtRatio ≤ 1)
    (hir : 0 ≤ i.interestRate) (hc1 : 0 ≤ c1) (hcc : c1 ≤ c2) (yr : ℕ) :
    rawNetCF (sweepInputs i c2) yr ≤ rawNetCF (sweepInputs i c1) yr := by
  have hb : (0 : ℚ) ≤ i.bessSize * (1 - i.debtRatio) :=
    mul_nonneg hsize (by linarith)
  by_cases h0 : yr = 0
  · subst h0
    have hequity : equity (sweepInputs i c1) ≤ equity (sweepInputs i c2) := by
      simp only [equity, debt, totalCapex, sweepInputs]
      nlinarith [mul_le_mul_of_nonneg_left hcc hb]
    simp only [rawNetCF, rawCashEq, rawEbitda, rawRev, rawOpex, rawDebtSvc, rawInitialInv]
    norm_num
    linarith
  · simp only [rawNetCF, rawCashEq, rawEbitda, rawInitialInv, if_neg h0, add_zero]
    have hrev : rawRev (sweepInputs i c2) yr = rawRev (sweepInputs i c1) yr := by
      simp [rawRev, rawFee, rawGRev, rawDegFactor, grossRevenue, powerKw, feeRate, sweepInputs]
    have hopex : rawOpex (sweepInputs i c1) yr ≤ rawOpex (sweepInputs i c2) yr := by
      simp only [rawOpex, annualOm, totalCapex, sweepInputs, if_neg h0]
      have hom : (0 : ℚ) ≤ i.bessSize * OM_COST_RATE := by
        apply mul_nonneg hsize
        norm_num [OM_COST_RATE]
      nlinarith [mul_le_mul_of_nonneg_left hcc hom]
    have hdebt1 : (0 : ℚ) ≤ debt (sweepInputs i c1) := by
      simp only [debt, totalCapex, sweepInputs]
      exact mul_nonneg (mul_nonneg hsize hc1) hdr0
    have hdebt12 : debt (sweepInputs i c1) ≤ debt (sweepInputs i c2) := by
      simp only [debt, totalCapex, sweepInputs]
      have hbd : (0 : ℚ) ≤ i.bessSize * i.debtRatio := mul_nonneg hsize hdr0
      nlinarith [mul_le_mul_of_nonneg_left hcc hbd]
    have hdsvc : rawDebtSvc (sweepInputs i c1) yr ≤ rawDebtSvc (sweepInputs i c2) yr := by
      simp only [rawDebtSvc, sweepInputs]
      split_ifs with h
      · exact computePayment_mono _ hir hdebt1 hdebt12
      · exact le_rfl
    linarith

/-- The payback value is antitone in the cumulative column: pointwise larger
cumulative cash flows (with the matching net columns) pay back no later. -/
theorem payLoop_mono {c1 n1 c2 n2 : ℕ → ℚ}
    (hpt : ∀ k, k ≤ PROJECT_LIFE → c2 k ≤ c1 k)
    (h10 : c1 0 ≤ 0)
    (hn1 : ∀ k, 1 ≤ k → k ≤ PROJECT_LIFE → n1 k = c1 k - c1 (k - 1))
    (hn2 : ∀ k, 1 ≤ k → k ≤ PROJECT_LIFE → n2 k = c2 k - c2 (k - 1)) :
    payLoop c1 n1 ≤ payLoop c2 n2 := by
  have hPL : ((PROJECT_LIFE : ℕ) : ℚ) = 12 := by norm_num [PROJECT_LIFE]
  unfold payLoop
  cases h1 : fcAux c1 1 PROJECT_LIFE with
  | none =>
    cases h2 : fcAux c2 1 PROJECT_LIFE with
    | none => exact le_refl _
    | some j2 =>
      obtain ⟨hj1, hj2, hj3, _⟩ := fcAux_some_spec c2 PROJECT_LIFE 1 j2 h2
      have hnone := (fcAux_none_iff c1 PROJECT_LIFE 1).1 h1 j2 hj1 hj2
      exact absurd (lt_of_lt_of_le hj3 (hpt j2 (by omega))) hnone
  | some j1 =>
    obtain ⟨ha1, ha2, ha3, ha4⟩ := fcAux_some_spec c1 PROJECT_LIFE 1 j1 h1
    have hprev1 : c1 (j1 - 1) ≤ 0 := by
      rcases Nat.eq_or_lt_of_le ha1 with heq | hlt
      · rw [← heq]
        simpa using h10
      · exact not_lt.1 (ha4 (j1 - 1) (by omega) (by omega))
    have hb1 : 0 < c1 j1 := ha3
    have hn1j : n1 j1 = c1 j1 - c1 (j1 - 1) := hn1 j1 (by omega) (by omega)
    have hfrac1_lt : -(c1 (j1 - 1)) / n1 j1 < 1 := by
      rw [hn1j, div_lt_one (by linarith)]
      linarith
    have hfrac1_nonneg : 0 ≤ -(c1 (j1 - 1)) / n1 j1 := by
      rw [hn1j]
      apply div_nonneg <;> linarith
    cases h2 : fcAux c2 1 PROJECT_LIFE with
    | none =>
      show (j1 : ℚ) - 1 + -(c1 (j1 - 1)) / n1 j1 ≤ ((PROJECT_LIFE : ℕ) : ℚ)
      have hj1le : (j1 : ℚ) ≤ 12 := by
        have h12 : PROJECT_LIFE = 12 := rfl
        have : j1 ≤ 12 := by omega
        exact_mod_cast this
      rw [hPL]
      linarith
    | some j2 =>
      obtain ⟨hc1', hc2', hc3', hc4'⟩ := fcAux_some_spec c2 PROJECT_LIFE 1 j2 h2
      have hj12 : j1 ≤ j2 := by
        by_contra hgt
        push_neg at hgt
        exact ha4 j2 hc1' hgt (lt_of_lt_of_le hc3' (hpt j2 (by omega)))
      have hprev2 : c2 (j2 - 1) ≤ 0 := by
        rcases Nat.eq_or_lt_of_le hc1' with heq | hlt
        · rw [← heq]
          simpa using le_trans (hpt 0 (by omega)) h10
        · exact not_lt.1 (hc4' (j2 - 1) (by omega) (by omega))
      have hn2j : n2 j2 = c2 j2 - c2 (j2 - 1) := hn2 j2 (by omega) (by omega)
      have hfrac2_nonneg : 0 ≤ -(c2 (j2 - 1)) / n2 j2 := by
        rw [hn2j]
        apply div_nonneg <;> linarith [hc3']
      show (j1 : ℚ) - 1 + -(c1 (j1 - 1)) / n1 j1 ≤ (j2 : ℚ) - 1 + -(c2 (j2 - 1)) / n2 j2
      rcases Nat.eq_or_lt_of_le hj12 with heq | hlt
      · subst heq
        have hble : c2 j1 ≤ c1 j1 := hpt j1 (by omega)
        have hcp : c2 (j1 - 1) ≤ c1 (j1 - 1) := hpt (j1 - 1) (by omega)
        rw [hn1j, hn2j]
        have key : -(c1 (j1 - 1)) / (c1 j1 - c1 (j1 - 1)) ≤
            -(c2 (j1 - 1)) / (c2 j1 - c2 (j1 - 1)) := by
          rw [div_le_div_iff₀ (by linarith) (by linarith [hc3'])]
          have hu : -(c1 (j1 - 1)) * c2 j1 ≤ -(c2 (j1 - 1)) * c2 j1 :=
            mul_le_mul_of_nonneg_right (by linarith) (le_of_lt hc3')
          have hv : -(c2 (j1 - 1)) * c2 j1 ≤ -(c2 (j1 - 1)) * c1 j1 :=
            mul_le_mul_of_nonneg_left hble (by linarith)
          nlinarith [hu, hv]
        linarith
      · have hcast : (j1 : ℚ) + 1 ≤ (j2 : ℚ) := by
          have : j1 + 1 ≤ j2 := hlt
          exact_mod_cast this
        linarith

/-!
Bounds for the JS rounding function.
-/

/-- Rounding moves a value up by at most one half. -/
theorem jround_le (x : ℚ) : ((jround x : ℤ) : ℚ) ≤ x + 1/2 := Int.floor_le _

/-- Rounding moves a value down by strictly less than one half. -/
theorem lt_jround (x : ℚ) : x - 1/2 < ((jround x : ℤ) : ℚ) := by
  have h := Int.lt_floor_add_one (x + 1/2)
  unfold jround
  linarith

/-- Rounding a non-negative value stays non-negative. -/
theorem jround_nonneg {x : ℚ} (h : 0 ≤ x) : 0 ≤ jround x :=
  Int.le_floor.2 (by push_cast; linarith)

/-- Rounding zero gives zero. -/
theorem jround_zero : jround 0 = 0 := by
  unfold jround
  norm_num

/-- Rounding a sum differs from the sum of roundings by at most one unit. -/
theorem jround_add_err (a b : ℚ) : |jround (a + b) - (jround a + jround b)| ≤ 1 := by
  have h1 := jround_le (a + b)
  have h2 := lt_jround (a + b)
  have h3 := jround_le a
  have h4 := lt_jround a
  have h5 := jround_le b
  have h6 := lt_jround b
  rw [abs_le]
  constructor
  · by_contra h
    push_neg at h
    have hz : jround (a + b) - (jround a + jround b) ≤ -2 := by omega
    have hq : ((jround (a + b) - (jround a + jround b) : ℤ) : ℚ) ≤ -2 := by
      exact_mod_cast hz
    push_cast at hq
    linarith
  · by_contra h
    push_neg at h
    have hz : 2 ≤ jround (a + b) - (jround a + jround b) := by omega
    have hq : (2 : ℚ) ≤ ((jround (a + b) - (jround a + jround b) : ℤ) : ℚ) := by
      exact_mod_cast hz
    push_cast at hq
    linarith

/-!
IRR solver on all-zero flow sequences.
-/

/-- The reduce of the IRR NPV leaves the accumulator unchanged on an all-zero
list. -/
theorem irrNpvGo_zeros (r : ℚ) (l : List ℚ) (h : ∀ x ∈ l, x = 0) :
    ∀ idx acc, irrNpvGo r l idx acc = acc := by
  induction l with
  | nil => intro idx acc; rfl
  | cons x rest ih =>
    intro idx acc
    have hx : x = 0 := h x (by simp)
    rw [irrNpvGo, hx]
    rw [zero_div, add_zero]
    exact ih (fun y hy => h y (by simp [hy])) (idx + 1) acc

/-- On an all-zero flow sequence the very first trial NPV is 0, inside the
0.01 tolerance, so the solver stops at once and returns the initial trial
rate 0.1 — not 0. -/
theorem calcIRR_zeros (l : List ℚ) (h : ∀ x ∈ l, x = 0) : calcIRR l = 1/10 := by
  show irrGo l (99 + 1) (1/10) (1/10) = 1/10
  rw [irrGo]
  have hnpv : irrNpv l (1/10) = 0 := irrNpvGo_zeros (1/10) l h 0 0
  rw [hnpv]
  norm_num

/-- The unrounded net cash flow vanishes at the zero-capacity input. -/
theorem rawNetCF_zeroCap (yr : ℕ) : rawNetCF zeroCapInputs yr = 0 := by
  simp [rawNetCF, rawCashEq, rawEbitda, rawRev, rawFee, rawGRev, rawDegFactor,
    rawOpex, rawDebtSvc, rawInitialInv, annualDebtPmt, computePayment, debt,
    equity, totalCapex, annualOm, grossRevenue, powerKw, feeRate,
    zeroCapInputs, baseInputs]

end BESS

namespace BESS

/-!
Claim theorems.
-/

/-- C1: the claim states the `npv` field equals the sum of the discounted net
cash flows (with year 0's flow `-equity` counted once).  In the code the
accumulator is seeded at `-equity` AND year 0's own `-equity` flow is also
discounted into it, so for every input `npv = (Σ discounted flows) - equity`;
at the default inputs (equity 87500) the two sides differ, refuting the claim
and exhibiting the double-counted equity outlay. -/
theorem claim_C1 :
    (∀ i : ProjectInputs, calcNpv i = npvOfDiscountedFlows i - equity i) ∧
    equity baseInputs = 87500 ∧
    calcNpv baseInputs ≠ npvOfDiscountedFlows baseInputs := by
  have he : equity baseInputs = 87500 := by
    norm_num [equity, debt, totalCapex, baseInputs]
  refine ⟨fun i => by rw [calcNpv_eq i]; ring, he, ?_⟩
  rw [calcNpv_eq baseInputs]
  intro h
  rw [he] at h
  linarith

/-- C3: the claim states the payback interpolation is guarded against a zero
net cash flow at the crossing year.  The source has no such guard: on the
cumulative sequence [-1, 1] with net sequence [-1, 0] the scan finds the
crossing at year 1 and the net cash flow there is 0, so the code computes
`-(-1) / 0` (JS `Infinity`), not the claimed `i - 1 = 0`. -/
theorem claim_C3 :
    crossingIndexList [-1, 1] = some 1 ∧
    (([-1, 0] : List ℚ).getD 1 0 = 0) ∧
    paybackDividesByZero [-1, 1] [-1, 0] = true := by
  have h : crossingIndexList [-1, 1] = some 1 := by
    norm_num [crossingIndexList, fcAux, List.getD]
  refine ⟨h, by norm_num [List.getD], ?_⟩
  rw [paybackDividesByZero, h]
  norm_num [List.getD]

/-- C7: the annual debt payment is 0 when the principal or the tenor is zero;
equals `principal / tenor` when the rate is zero (with positive principal and
tenor); and otherwise equals the level-payment amortization formula
`principal * rate * (1+rate)^tenor / ((1+rate)^tenor - 1)`. -/
theorem claim_C7 (p r : ℚ) (t : ℕ) (hp : 0 ≤ p) (hr : 0 ≤ r) :
    ((p = 0 ∨ t = 0) → computePayment p r t = 0) ∧
    (r = 0 → 0 < p → 0 < t → computePayment p r t = p / (t : ℚ)) ∧
    (r ≠ 0 → 0 < p → 0 < t →
      computePayment p r t = (p * r * (1 + r) ^ t) / ((1 + r) ^ t - 1)) := by
  refine ⟨?_, ?_, ?_⟩
  · rintro (rfl | rfl)
    · unfold computePayment
      rw [if_neg]
      rintro ⟨h, _⟩
      exact lt_irrefl 0 h
    · unfold computePayment
      rw [if_neg]
      rintro ⟨_, h⟩
      exact lt_irrefl 0 h
  · intro h0 hp2 ht
    have hc : 0 < p ∧ 0 < t := ⟨hp2, ht⟩
    unfold computePayment
    rw [if_pos hc, if_pos h0]
  · intro hne hp2 ht
    have hc : 0 < p ∧ 0 < t := ⟨hp2, ht⟩
    unfold computePayment
    rw [if_pos hc, if_neg hne]

/-- Witness for C7 at principal 1000, rate 2/25, tenor 7 years. -/
theorem claim_C7_witness :
    (0 ≤ (1000 : ℚ)) ∧ (0 ≤ (2/25 : ℚ)) ∧
    ((((1000 : ℚ) = 0 ∨ (7 : ℕ) = 0) → computePayment 1000 (2/25) 7 = 0) ∧
      ((2/25 : ℚ) = 0 → 0 < (1000 : ℚ) → 0 < (7 : ℕ) →
        computePayment 1000 (2/25) 7 = 1000 / ((7 : ℕ) : ℚ)) ∧
      ((2/25 : ℚ) ≠ 0 → 0 < (1000 : ℚ) → 0 < (7 : ℕ) →
        computePayment 1000 (2/25) 7 =
          (1000 * (2/25) * (1 + 2/25) ^ (7 : ℕ)) / ((1 + 2/25) ^ (7 : ℕ) - 1))) :=
  ⟨by norm_num, by norm_num, claim_C7 1000 (2/25) 7 (by norm_num) (by norm_num)⟩

/-- C9: the claim states every numeric output field, including
`ebitdaMarginYear1`, is finite at degenerate inputs.  At zero storage
capacity the margin's denominator `netRevenue` is 0 (and its numerator term
`annualOm` is 0 too), so the code's `(netRevenue - annualOm) / netRevenue`
is `0 / 0` — JS `NaN` — refuting the claim. -/
theorem claim_C9 :
    netRevenue zeroCapInputs = 0 ∧ annualOm zeroCapInputs = 0 := by
  constructor <;>
    norm_num [netRevenue, feeAnnual, grossRevenue, powerKw, annualOm,
      totalCapex, feeRate, zeroCapInputs, baseInputs]

/-- C10: on an all-zero net-cash-flow sequence the IRR solver returns exactly
0.1, the initial trial rate, because the first trial NPV is 0 which is inside
the 0.01 tolerance; in particular the primary pipeline at the zero-capacity
input returns irr = 0.1, not 0. -/
theorem claim_C10 :
    (∀ n : ℕ, calcIRR (List.replicate n 0) = 1/10) ∧
    calcIrrResult zeroCapInputs = 1/10 := by
  constructor
  · intro n
    apply calcIRR_zeros
    intro x hx
    exact List.eq_of_mem_replicate hx
  · rw [calcIrrResult]
    apply calcIRR_zeros
    intro x hx
    rw [calcNetCFList_eq] at hx
    obtain ⟨yr, _, rfl⟩ := List.mem_map.1 hx
    rw [rawNetCF_zeroCap, jround_zero]
    norm_num

end BESS

namespace BESS

/-- Unfolding helper: a non-empty scan that finds a positive value at its
start returns that index. -/
theorem fcAux_found {cum : ℕ → ℚ} {s fuel : ℕ} (hf : fuel ≠ 0) (h : 0 < cum s) :
    fcAux cum s fuel = some s := by
  obtain ⟨m, rfl⟩ : ∃ m, fuel = m + 1 := ⟨fuel - 1, by omega⟩
  rw [fcAux, if_pos h]

/-- Unfolding helper: a scan that sees a non-positive value moves on. -/
theorem fcAux_skip {cum : ℕ → ℚ} {s fuel : ℕ} (hf : fuel ≠ 0) (h : ¬ 0 < cum s) :
    fcAux cum s fuel = fcAux cum (s + 1) (fuel - 1) := by
  obtain ⟨m, rfl⟩ : ∃ m, fuel = m + 1 := ⟨fuel - 1, by omega⟩
  rw [fcAux, if_neg h]
  norm_num

/-- The year-0 net cash flow is exactly the negative equity outlay. -/
theorem rawNetCF_zero (i : ProjectInputs) : rawNetCF i 0 = -equity i := by
  simp [rawNetCF, rawCashEq, rawEbitda, rawRev, rawOpex, rawDebtSvc, rawInitialInv]

/-- C5 (amended): the cumulative recurrence
`cumulative[i] = cumulative[i-1] + netCashFlow[i]` holds exactly on the
unrounded accumulations; on the rounded table columns it only holds up to an
error of at most one currency unit, because the three fields are rounded
independently. -/
theorem claim_C5_amended (i : ProjectInputs) (yr : ℕ) (h1 : 1 ≤ yr)
    (h2 : yr ≤ PROJECT_LIFE) :
    rawCum i 0 = rawNetCF i 0 ∧
    rawCum i yr = rawCum i (yr - 1) + rawNetCF i yr ∧
    |((calcFlows i).getD yr default).cumulativeCashFlow -
      (((calcFlows i).getD (yr - 1) default).cumulativeCashFlow +
        ((calcFlows i).getD yr default).netCashFlow)| ≤ 1 := by
  have hr : rawCum i yr = rawCum i (yr - 1) + rawNetCF i yr := by
    obtain ⟨m, rfl⟩ : ∃ m, yr = m + 1 := ⟨yr - 1, by omega⟩
    simp [rawCum, Finset.sum_range_succ]
  refine ⟨by simp [rawCum], hr, ?_⟩
  rw [calcFlows_getD i yr (by omega), calcFlows_getD i (yr - 1) (by omega)]
  show |jround (rawCum i yr) - (jround (rawCum i (yr - 1)) + jround (rawNetCF i yr))| ≤ 1
  rw [hr]
  exact jround_add_err _ _

/-- Witness for the amended C5 at the default inputs, year 5. -/
theorem claim_C5_amended_witness :
    (1 ≤ 5) ∧ (5 ≤ PROJECT_LIFE) ∧
    (rawCum baseInputs 0 = rawNetCF baseInputs 0 ∧
      rawCum baseInputs 5 = rawCum baseInputs (5 - 1) + rawNetCF baseInputs 5 ∧
      |((calcFlows baseInputs).getD 5 default).cumulativeCashFlow -
        (((calcFlows baseInputs).getD (5 - 1) default).cumulativeCashFlow +
          ((calcFlows baseInputs).getD 5 default).netCashFlow)| ≤ 1) :=
  ⟨by norm_num, by norm_num [PROJECT_LIFE],
    claim_C5_amended baseInputs 5 (by norm_num) (by norm_num [PROJECT_LIFE])⟩

/-- C5 counterexample: at the small all-equity input, the rounded table
violates the exact recurrence at year 8: the cumulative field is 1177 but
the previous cumulative plus the net field is 1028 + 148 = 1176. -/
theorem claim_C5_cex :
    ((calcFlows tinyInputs100).getD 8 default).cumulativeCashFlow ≠
      ((calcFlows tinyInputs100).getD 7 default).cumulativeCashFlow +
        ((calcFlows tinyInputs100).getD 8 default).netCashFlow := by
  have hc7 : rawCum tinyInputs100 7 = 10040697711834581/9765625000000 := by
    simp only [rawCum, Finset.sum_range_succ, Finset.sum_range_zero, rawNetCF,
      rawCashEq, rawEbitda, rawRev, rawFee, rawGRev, rawDegFactor, rawOpex,
      rawDebtSvc, rawInitialInv, annualDebtPmt, computePayment, debt, equity,
      totalCapex, annualOm, grossRevenue, powerKw, feeRate, tinyInputs100,
      baseInputs, REVENUE_PER_KW, OM_COST_RATE, DEGRADATION_RATE,
      POWER_TO_ENERGY, DISCHARGE_EFF]
    norm_num
  have hc8 : rawCum tinyInputs100 8 = 574503758192394469/488281250000000 := by
    simp only [rawCum, Finset.sum_range_succ, Finset.sum_range_zero, rawNetCF,
      rawCashEq, rawEbitda, rawRev, rawFee, rawGRev, rawDegFactor, rawOpex,
      rawDebtSvc, rawInitialInv, annualDebtPmt, computePayment, debt, equity,
      totalCapex, annualOm, grossRevenue, powerKw, feeRate, tinyInputs100,
      baseInputs, REVENUE_PER_KW, OM_COST_RATE, DEGRADATION_RATE,
      POWER_TO_ENERGY, DISCHARGE_EFF]
    norm_num
  have hn8 : rawNetCF tinyInputs100 8 = 72468872600665419/488281250000000 := by
    simp only [rawNetCF, rawCashEq, rawEbitda, rawRev, rawFee, rawGRev,
      rawDegFactor, rawOpex, rawDebtSvc, rawInitialInv, annualDebtPmt,
      computePayment, debt, equity, totalCapex, annualOm, grossRevenue,
      powerKw, feeRate, tinyInputs100, baseInputs, REVENUE_PER_KW,
      OM_COST_RATE, DEGRADATION_RATE, POWER_TO_ENERGY, DISCHARGE_EFF]
    norm_num
  rw [calcFlows_getD tinyInputs100 8 (by norm_num [PROJECT_LIFE]),
    calcFlows_getD tinyInputs100 7 (by norm_num [PROJECT_LIFE])]
  show jround (rawCum tinyInputs100 8) ≠
    jround (rawCum tinyInputs100 7) + jround (rawNetCF tinyInputs100 8)
  rw [hc7, hc8, hn8]
  unfold jround
  norm_num

end BESS

namespace BESS

/-- C6 (amended): the table's `debtService` is exactly 0 for year 0 and for
years beyond the loan tenor.  Inside the window with positive debt the
unrounded annual payment is strictly positive, and the table shows its
rounding — which is non-negative but can be 0 when the payment is below one
half of a currency unit. -/
theorem claim_C6_amended (i : ProjectInputs) (yr : ℕ) (hyr : yr ≤ PROJECT_LIFE)
    (hir : 0 ≤ i.interestRate) :
    ((yr = 0 ∨ i.loanTenor < yr) → ((calcFlows i).getD yr default).debtService = 0) ∧
    (0 < yr → yr ≤ i.loanTenor → 0 < debt i →
      0 < annualDebtPmt i ∧
      ((calcFlows i).getD yr default).debtService = jround (annualDebtPmt i) ∧
      0 ≤ ((calcFlows i).getD yr default).debtService) := by
  rw [calcFlows_getD i yr (by omega)]
  constructor
  · rintro (rfl | hgt)
    · show jround (rawDebtSvc i 0) = 0
      rw [rawDebtSvc, if_neg, jround_zero]
      rintro ⟨h, _⟩
      exact lt_irrefl 0 h
    · show jround (rawDebtSvc i yr) = 0
      rw [rawDebtSvc, if_neg, jround_zero]
      rintro ⟨_, h⟩
      omega
  · intro h1 h2 h3
    have hpos : 0 < annualDebtPmt i := computePayment_pos h3 hir (by omega)
    have heq : rawDebtSvc i yr = annualDebtPmt i := by
      rw [rawDebtSvc, if_pos ⟨h1, h2⟩]
    refine ⟨hpos, ?_, ?_⟩
    · show jround (rawDebtSvc i yr) = jround (annualDebtPmt i)
      rw [heq]
    · show (0 : ℤ) ≤ jround (rawDebtSvc i yr)
      rw [heq]
      exact jround_nonneg (le_of_lt hpos)

/-- Witness for the amended C6 at the 10%-debt input, year 3. -/
theorem claim_C6_amended_witness :
    (3 ≤ PROJECT_LIFE) ∧ (0 ≤ tinyDebtInputs.interestRate) ∧
    ((((3 : ℕ) = 0 ∨ tinyDebtInputs.loanTenor < 3) →
        ((calcFlows tinyDebtInputs).getD 3 default).debtService = 0) ∧
      (0 < (3 : ℕ) → (3 : ℕ) ≤ tinyDebtInputs.loanTenor → 0 < debt tinyDebtInputs →
        0 < annualDebtPmt tinyDebtInputs ∧
        ((calcFlows tinyDebtInputs).getD 3 default).debtService =
          jround (annualDebtPmt tinyDebtInputs) ∧
        0 ≤ ((calcFlows tinyDebtInputs).getD 3 default).debtService)) :=
  ⟨by norm_num [PROJECT_LIFE], by norm_num [tinyDebtInputs, baseInputs],
    claim_C6_amended tinyDebtInputs 3 (by norm_num [PROJECT_LIFE])
      (by norm_num [tinyDebtInputs, baseInputs])⟩

/-- C6 counterexample: at the 10%-debt input the debt is 1 > 0 and year 1 is
inside the loan window, yet the table's `debtService` field is 0: the annual
payment 1/7 rounds to 0, refuting the claimed strict positivity of the table
value. -/
theorem claim_C6_cex :
    0 < debt tinyDebtInputs ∧ 0 < tinyDebtInputs.loanTenor ∧
    (1 : ℕ) ≤ tinyDebtInputs.loanTenor ∧
    ¬ 0 < ((calcFlows tinyDebtInputs).getD 1 default).debtService := by
  have hdebt : debt tinyDebtInputs = 1 := by
    norm_num [debt, totalCapex, tinyDebtInputs, baseInputs]
  have hpmt : annualDebtPmt tinyDebtInputs = 1/7 := by
    rw [annualDebtPmt, hdebt]
    norm_num [computePayment, tinyDebtInputs, baseInputs]
  refine ⟨by rw [hdebt]; norm_num, by norm_num [tinyDebtInputs, baseInputs],
    by norm_num [tinyDebtInputs, baseInputs], ?_⟩
  rw [calcFlows_getD tinyDebtInputs 1 (by norm_num [PROJECT_LIFE])]
  show ¬ 0 < jround (rawDebtSvc tinyDebtInputs 1)
  have hds : rawDebtSvc tinyDebtInputs 1 = 1/7 := by
    rw [rawDebtSvc, if_pos, hpmt]
    exact ⟨by norm_num, by norm_num [tinyDebtInputs, baseInputs]⟩
  rw [hds]
  unfold jround
  norm_num

end BESS

namespace BESS

/-- C2 (amended): the primary pipeline feeds the ROUNDED table columns to the
IRR solver and to the payback interpolation — `calcIRR` receives the rounded
`netCashFlow` column and the payback scan reads the rounded cumulative and
net columns.  (The unrounded sequences are used only by the sensitivity
sweep.) -/
theorem claim_C2_amended (i : ProjectInputs) :
    calcIrrResult i =
      calcIRR ((List.range (PROJECT_LIFE + 1)).map
        (fun yr => ((jround (rawNetCF i yr) : ℤ) : ℚ))) ∧
    calcPaybackResult i =
      payLoop (fun yr => ((jround (rawCum i yr) : ℤ) : ℚ))
        (fun yr => ((jround (rawNetCF i yr) : ℤ) : ℚ)) := by
  constructor
  · rw [calcIrrResult, calcNetCFList_eq]
  · rw [calcPaybackResult]
    apply payLoop_congr
    · intro k hk
      exact tableCum_eq i k hk
    · intro k hk1 hk2
      exact tableNet_eq i k hk2

/-- C2 counterexample: at the small all-equity input the primary payback is
100/171 (computed from the rounded table), while the payback over the
unrounded sums is 125000/213987 — so the primary irr/payback are NOT computed
from the unrounded sequences as claimed. -/
theorem claim_C2_cex :
    ¬ (calcIrrResult tinyInputs100 =
         calcIRR ((List.range (PROJECT_LIFE + 1)).map (rawNetCF tinyInputs100)) ∧
       calcPaybackResult tinyInputs100 =
         payLoop (rawCum tinyInputs100) (rawNetCF tinyInputs100)) := by
  have hrc0 : rawCum tinyInputs100 0 = -100 := by
    simp only [rawCum, Finset.sum_range_succ, Finset.sum_range_zero, rawNetCF,
      rawCashEq, rawEbitda, rawRev, rawFee, rawGRev, rawDegFactor, rawOpex,
      rawDebtSvc, rawInitialInv, annualDebtPmt, computePayment, debt, equity,
      totalCapex, annualOm, grossRevenue, powerKw, feeRate, tinyInputs100,
      baseInputs, REVENUE_PER_KW, OM_COST_RATE, DEGRADATION_RATE,
      POWER_TO_ENERGY, DISCHARGE_EFF]
    norm_num
  have hrc1 : rawCum tinyInputs100 1 = 88987/1250 := by
    simp only [rawCum, Finset.sum_range_succ, Finset.sum_range_zero, rawNetCF,
      rawCashEq, rawEbitda, rawRev, rawFee, rawGRev, rawDegFactor, rawOpex,
      rawDebtSvc, rawInitialInv, annualDebtPmt, computePayment, debt, equity,
      totalCapex, annualOm, grossRevenue, powerKw, feeRate, tinyInputs100,
      baseInputs, REVENUE_PER_KW, OM_COST_RATE, DEGRADATION_RATE,
      POWER_TO_ENERGY, DISCHARGE_EFF]
    norm_num
  have hrn1 : rawNetCF tinyInputs100 1 = 213987/1250 := by
    simp only [rawNetCF, rawCashEq, rawEbitda, rawRev, rawFee, rawGRev,
      rawDegFactor, rawOpex, rawDebtSvc, rawInitialInv, annualDebtPmt,
      computePayment, debt, equity, totalCapex, annualOm, grossRevenue,
      powerKw, feeRate, tinyInputs100, baseInputs, REVENUE_PER_KW,
      OM_COST_RATE, DEGRADATION_RATE, POWER_TO_ENERGY, DISCHARGE_EFF]
    norm_num
  have htc0 : tableCum tinyInputs100 0 = -100 := by
    rw [tableCum_eq tinyInputs100 0 (by norm_num [PROJECT_LIFE]), hrc0]
    unfold jround
    norm_num
  have htc1 : tableCum tinyInputs100 1 = 71 := by
    rw [tableCum_eq tinyInputs100 1 (by norm_num [PROJECT_LIFE]), hrc1]
    unfold jround
    norm_num
  have htn1 : tableNet tinyInputs100 1 = 171 := by
    rw [tableNet_eq tinyInputs100 1 (by norm_num [PROJECT_LIFE]), hrn1]
    unfold jround
    norm_num
  have hfc1 : fcAux (tableCum tinyInputs100) 1 PROJECT_LIFE = some 1 :=
    fcAux_found (by norm_num [PROJECT_LIFE]) (by rw [htc1]; norm_num)
  have hfc2 : fcAux (rawCum tinyInputs100) 1 PROJECT_LIFE = some 1 :=
    fcAux_found (by norm_num [PROJECT_LIFE]) (by rw [hrc1]; norm_num)
  have hpb1 : calcPaybackResult tinyInputs100 = 100/171 := by
    rw [calcPaybackResult, payLoop, hfc1]
    show (1 : ℚ) - 1 + -(tableCum tinyInputs100 0) / tableNet tinyInputs100 1 = 100/171
    rw [htc0, htn1]
    norm_num
  have hpb2 : payLoop (rawCum tinyInputs100) (rawNetCF tinyInputs100) = 125000/213987 := by
    rw [payLoop, hfc2]
    show (1 : ℚ) - 1 + -(rawCum tinyInputs100 0) / rawNetCF tinyInputs100 1 = 125000/213987
    rw [hrc0, hrn1]
    norm_num
  rintro ⟨-, hpay⟩
  rw [hpb1, hpb2] at hpay
  norm_num at hpay

end BESS

namespace BESS

/-- C4 (amended): each sensitivity point does run the full projector → IRR →
payback pipeline at the substituted inputs, but on the UNROUNDED flow
sequence; its payback and irr therefore equal the unrounded pipeline's
values at those inputs (not, in general, the primary result's irr/payback,
which are computed from the rounded table — see the counterexample). -/
theorem claim_C4_amended (i : ProjectInputs) (cpx : ℚ) :
    sensPoint i cpx =
      { capex := cpx
        payback := payLoop (rawCum (sweepInputs i cpx)) (rawNetCF (sweepInputs i cpx))
        irr := calcIRR ((List.range (PROJECT_LIFE + 1)).map (rawNetCF (sweepInputs i cpx))) * 100 } :=
  rfl

/-- C4 counterexample: at the 1 kWh input whose capital cost 300 is a swept
axis value, the sweep's emitted payback is 3089023/1715998 ≈ 1.80013 while
the primary result's payback is 9/5 = 1.8 exactly, so the emitted point does
NOT equal the primary pipeline's result. -/
theorem claim_C4_cex :
    ((300 : ℚ) ∈ CAPEX_VALUES) ∧ tinyInputs300.capexPerKwh = 300 ∧
    ¬ ((sensPoint tinyInputs300 300).payback = calcPaybackResult tinyInputs300 ∧
       (sensPoint tinyInputs300 300).irr = calcIrrResult tinyInputs300 * 100) := by
  have hrc1 : rawCum tinyInputs300 1 = -164763/1250 := by
    simp only [rawCum, Finset.sum_range_succ, Finset.sum_range_zero, rawNetCF,
      rawCashEq, rawEbitda, rawRev, rawFee, rawGRev, rawDegFactor, rawOpex,
      rawDebtSvc, rawInitialInv, annualDebtPmt, computePayment, debt, equity,
      totalCapex, annualOm, grossRevenue, powerKw, feeRate, tinyInputs300,
      baseInputs, REVENUE_PER_KW, OM_COST_RATE, DEGRADATION_RATE,
      POWER_TO_ENERGY, DISCHARGE_EFF]
    norm_num
  have hrc2 : rawCum tinyInputs300 2 = 1028919/31250 := by
    simp only [rawCum, Finset.sum_range_succ, Finset.sum_range_zero, rawNetCF,
      rawCashEq, rawEbitda, rawRev, rawFee, rawGRev, rawDegFactor, rawOpex,
      rawDebtSvc, rawInitialInv, annualDebtPmt, computePayment, debt, equity,
      totalCapex, annualOm, grossRevenue, powerKw, feeRate, tinyInputs300,
      baseInputs, REVENUE_PER_KW, OM_COST_RATE, DEGRADATION_RATE,
      POWER_TO_ENERGY, DISCHARGE_EFF]
    norm_num
  have hrn2 : rawNetCF tinyInputs300 2 = 2573997/15625 := by
    simp only [rawNetCF, rawCashEq, rawEbitda, rawRev, rawFee, rawGRev,
      rawDegFactor, rawOpex, rawDebtSvc, rawInitialInv, annualDebtPmt,
      computePayment, debt, equity, totalCapex, annualOm, grossRevenue,
      powerKw, feeRate, tinyInputs300, baseInputs, REVENUE_PER_KW,
      OM_COST_RATE, DEGRADATION_RATE, POWER_TO_ENERGY, DISCHARGE_EFF]
    norm_num
  have htc1 : tableCum tinyInputs300 1 = -132 := by
    rw [tableCum_eq tinyInputs300 1 (by norm_num [PROJECT_LIFE]), hrc1]
    unfold jround
    norm_num
  have htc2 : tableCum tinyInputs300 2 = 33 := by
    rw [tableCum_eq tinyInputs300 2 (by norm_num [PROJECT_LIFE]), hrc2]
    unfold jround
    norm_num
  have htn2 : tableNet tinyInputs300 2 = 165 := by
    rw [tableNet_eq tinyInputs300 2 (by norm_num [PROJECT_LIFE]), hrn2]
    unfold jround
    norm_num
  have hfcr : fcAux (rawCum tinyInputs300) 1 PROJECT_LIFE = some 2 := by
    rw [fcAux_skip (by norm_num [PROJECT_LIFE]) (by rw [hrc1]; norm_num)]
    show fcAux (rawCum tinyInputs300) 2 11 = some 2
    exact fcAux_found (by norm_num) (by rw [hrc2]; norm_num)
  have hfct : fcAux (tableCum tinyInputs300) 1 PROJECT_LIFE = some 2 := by
    rw [fcAux_skip (by norm_num [PROJECT_LIFE]) (by rw [htc1]; norm_num)]
    show fcAux (tableCum tinyInputs300) 2 11 = some 2
    exact fcAux_found (by norm_num) (by rw [htc2]; norm_num)
  have hswp : (sensPoint tinyInputs300 300).payback =
      payLoop (rawCum tinyInputs300) (rawNetCF tinyInputs300) := rfl
  have hpb2 : payLoop (rawCum tinyInputs300) (rawNetCF tinyInputs300) = 3089023/1715998 := by
    rw [payLoop, hfcr]
    show (2 : ℚ) - 1 + -(rawCum tinyInputs300 1) / rawNetCF tinyInputs300 2 = 3089023/1715998
    rw [hrc1, hrn2]
    norm_num
  have hpb1 : calcPaybackResult tinyInputs300 = 9/5 := by
    rw [calcPaybackResult, payLoop, hfct]
    show (2 : ℚ) - 1 + -(tableCum tinyInputs300 1) / tableNet tinyInputs300 2 = 9/5
    rw [htc1, htn2]
    norm_num
  refine ⟨by simp [CAPEX_VALUES], rfl, ?_⟩
  rintro ⟨hpay, -⟩
  rw [hswp, hpb2, hpb1] at hpay
  norm_num at hpay

end BESS

namespace BESS

/-- C8: holding all other inputs fixed on the valid domain (non-negative
capacity, debt ratio in [0,1], non-negative interest rate), the payback
emitted by the sensitivity sweep is non-decreasing in the swept capital
cost: for axis values c1 < c2 the payback at c2 is at least the payback at
c1. -/
theorem claim_C8 (i : ProjectInputs) (c1 c2 : ℚ)
    (hsize : 0 ≤ i.bessSize) (hdr0 : 0 ≤ i.debtRatio) (hdr1 : i.debtRatio ≤ 1)
    (hir : 0 ≤ i.interestRate)
    (hm1 : c1 ∈ CAPEX_VALUES) (hm2 : c2 ∈ CAPEX_VALUES) (hlt : c1 < c2) :
    (sensPoint i c1).payback ≤ (sensPoint i c2).payback := by
  have hc1pos : 0 ≤ c1 := by
    simp only [CAPEX_VALUES, List.mem_cons, List.not_mem_nil, or_false] at hm1
    rcases hm1 with rfl | rfl | rfl | rfl | rfl <;> norm_num
  have hanti : ∀ yr : ℕ, sweepNetCF i c2 yr ≤ sweepNetCF i c1 yr := by
    intro yr
    rw [sweepNetCF_eq_raw, sweepNetCF_eq_raw]
    exact rawNetCF_capex_anti i hsize hdr0 hdr1 hir hc1pos (le_of_lt hlt) yr
  show sweepPayback i c1 ≤ sweepPayback i c2
  unfold sweepPayback
  apply payLoop_mono
  · intro k _
    unfold sweepCum
    exact Finset.sum_le_sum (fun j _ => hanti j)
  · have h0 : sweepCum i c1 0 = -(equity (sweepInputs i c1)) := by
      rw [sweepCum, Finset.sum_range_one, sweepNetCF_eq_raw, rawNetCF_zero]
    rw [h0, neg_nonpos]
    simp only [equity, debt, totalCapex, sweepInputs]
    nlinarith [mul_nonneg (mul_nonneg hsize hc1pos) (sub_nonneg.2 hdr1)]
  · intro k hk1 _
    exact sweepCum_sub i c1 k hk1
  · intro k hk1 _
    exact sweepCum_sub i c2 k hk1

/-- Witness for C8 at the default inputs and the axis pair 300 < 325. -/
theorem claim_C8_witness :
    (0 ≤ baseInputs.bessSize) ∧ (0 ≤ baseInputs.debtRatio) ∧
    (baseInputs.debtRatio ≤ 1) ∧ (0 ≤ baseInputs.interestRate) ∧
    ((300 : ℚ) ∈ CAPEX_VALUES) ∧ ((325 : ℚ) ∈ CAPEX_VALUES) ∧ ((300 : ℚ) < 325) ∧
    (sensPoint baseInputs 300).payback ≤ (sensPoint baseInputs 325).payback :=
  ⟨by norm_num [baseInputs], by norm_num [baseInputs], by norm_num [baseInputs],
    by norm_num [baseInputs], by simp [CAPEX_VALUES], by simp [CAPEX_VALUES],
    by norm_num,
    claim_C8 baseInputs 300 325 (by norm_num [baseInputs]) (by norm_num [baseInputs])
      (by norm_num [baseInputs]) (by norm_num [baseInputs])
      (by simp [CAPEX_VALUES]) (by simp [CAPEX_VALUES]) (by norm_num)⟩

end BESS
